import Mathlib

/-!
# pixel-reader: package structure resolver and bounded scrolling

A shallow embedding of `src/epub/epub_metadata.cpp` (container / package
resolution) and of the scroll arithmetic of
`src/reader/views/token_view/token_view.cpp`.

Conventions of the embedding

* A libxml2 document is a tree of `XmlNode`s.  An `xmlNodePtr` is modelled by
  the list made of the node pointed at followed by its `next` siblings, so the
  null pointer is `[]` and `node->next` is the tail.
* The lookup helpers of `epub/libxml_iter.h`, the types of
  `epub/epub_metadata.h` and `TokenLineScroller` are not among the sources and
  are modelled from the specification; `fs_path_join`, `fs_path_split_dir` and
  `SCREEN_HEIGHT` are parameters.
* `xmlReadMemory` belongs to libxml2; its result (`none` for a null document)
  is the input of the embedded functions.
* Writes to `std::cerr` are not part of the model (libstdc++ sets `badbit` when
  handed a null `char` pointer and carries on).
* C++ exceptions and undefined behaviour are values of `CppError`; a function
  that can raise returns `Except CppError _`.
* `int` values are `Int`; signed overflow is undefined in C++ and the model
  covers the executions that stay inside the range of `int`.
-/

namespace PixelReader

/-! ## Failures -/

/-- The ways in which the embedded C++ code can stop without returning. -/
inductive CppError where
  | runtime_error (what : String)
  | logic_error (what : String)
  | division_by_zero
  deriving DecidableEq, Repr

/-! ## libxml2 trees -/

/-- A libxml2 node: an element (`XML_ELEMENT_NODE`) with its name, properties
and children, or a node of another type (text, comment, processing
instruction), which has no properties and no children. -/
inductive XmlNode where
  | element (name : String) (properties : List (String × String)) (children : List XmlNode)
  | text (content : String)
  | comment (content : String)
  | pi (target : String) (content : String)

/-- A parsed document (`xmlDocPtr` that is not null): its top-level nodes. -/
structure XmlDoc where
  children : List XmlNode

/-- A node pointer: the node followed by its next siblings; `[]` is `nullptr`. -/
abbrev xmlNodePtr := List XmlNode

namespace XmlNode

/-- Test `node->type == XML_ELEMENT_NODE`. -/
def is_element : XmlNode → Bool
  | element _ _ _ => true
  | _ => false

/-- Test `node->type == XML_ELEMENT_NODE && xmlStrEqual(node->name, name)`. -/
def is_element_named (name : String) : XmlNode → Bool
  | element n _ _ => n == name
  | _ => false

/-- The list `node->children`. -/
def children : XmlNode → List XmlNode
  | element _ _ cs => cs
  | _ => []

/-- The property list `node->properties`. -/
def properties : XmlNode → List (String × String)
  | element _ ps _ => ps
  | _ => []

end XmlNode

/-- libxml2 `xmlDocGetRootElement`: the first top-level node that is an element. -/
def xmlDocGetRootElement (doc : XmlDoc) : xmlNodePtr :=
  doc.children.dropWhile (fun n => !n.is_element)

/-- libxml2 `xmlGetProp` on a node that is not null: the value of the first
property with that name, `none` (a null pointer) when there is none. -/
def xmlGetProp (node : XmlNode) (name : String) : Option String :=
  node.properties.lookup name

/-- libxml2 `xmlStrEqual`: equal pointers (both null) compare equal, a null
and a non-null string differ, two strings are compared by content. -/
def xmlStrEqual : Option String → Option String → Bool
  | none, none => true
  | some a, some b => a == b
  | _, _ => false

/-- The constructor `std::string(const char*)`: libstdc++ throws
`std::logic_error` when the pointer is null. -/
def std_string : Option String → Except CppError String
  | some s => .ok s
  | none => .error (.logic_error "basic_string: construction from null is not valid")

/-- Modelled from the spec: `elem_first_by_name` of `epub/libxml_iter.h`, which
is not among the sources.  Spec 4.1: element lookup is "first child/sibling
matching a given tag name"; the node itself or the first of its next siblings
that is an element with that name, null when there is none or the node is null. -/
def elem_first_by_name : xmlNodePtr → String → xmlNodePtr
  | [], _ => []
  | n :: rest, name =>
    if n.is_element_named name then n :: rest else elem_first_by_name rest name

/-- Modelled from the spec: `elem_first_child` of `epub/libxml_iter.h`, which is
not among the sources.  The first child element of the node, null when the
node is null or has no child element. -/
def elem_first_child : xmlNodePtr → xmlNodePtr
  | [] => []
  | n :: _ => n.children.dropWhile (fun c => !c.is_element)

/-- Modelled from the spec: `elem_next_by_name` of `epub/libxml_iter.h`, which
is not among the sources.  The first of the next siblings of the node that is
an element with that name. -/
def elem_next_by_name : xmlNodePtr → String → xmlNodePtr
  | [], _ => []
  | _ :: rest, name => elem_first_by_name rest name

/-! ## `epub_metadata.cpp` -/

/-- The function `epub_get_rootfile_path`; `container_doc` is the result of
`xmlReadMemory(container_xml, ...)`. -/
def epub_get_rootfile_path (container_doc : Option XmlDoc) : Except CppError String :=
  match container_doc with
  | none => .ok ""
  | some doc =>
    let node := xmlDocGetRootElement doc
    let node := elem_first_child (elem_first_by_name node "container")
    let node := elem_first_child (elem_first_by_name node "rootfiles")
    let node := elem_first_by_name node "rootfile"
    match node with
    | n :: _ =>
      let full_path := xmlGetProp n "full-path"
      let media_type := xmlGetProp n "media-type"
      if xmlStrEqual media_type (some "application/oebps-package+xml") then
        std_string full_path
      else
        .ok ""
    | [] => .ok ""

/-- The first `rootfile` element of a container document as the specification
names it, by descending container -> rootfiles -> rootfile: the `container`
element at the root, its first `rootfiles` child element, and the first
`rootfile` child element of that. -/
def first_rootfile (doc : XmlDoc) : Option XmlNode :=
  ((xmlDocGetRootElement doc).find? (XmlNode.is_element_named "container")).bind fun container =>
  (container.children.find? (XmlNode.is_element_named "rootfiles")).bind fun rootfiles =>
  rootfiles.children.find? (XmlNode.is_element_named "rootfile")

/-- The container of the spec's example: one rootfile `OEBPS/content.opf`. -/
def example_container : XmlDoc :=
  ⟨[.element "container" [("version", "1.0")]
      [.text "\n  ",
       .element "rootfiles" []
         [.text "\n    ",
          .element "rootfile"
            [("full-path", "OEBPS/content.opf"),
             ("media-type", "application/oebps-package+xml")] [],
          .text "\n  "],
       .text "\n"]]⟩

/-- A container whose rootfile has the package media type and no `full-path`. -/
def container_without_full_path : XmlDoc :=
  ⟨[.element "container" []
      [.element "rootfiles" []
        [.element "rootfile" [("media-type", "application/oebps-package+xml")] []]]]⟩

/-- Modelled from the spec: `ManifestItem` of `epub/epub_metadata.h`, which is
not among the sources.  Spec 3: `{ resolved_path: string, media_type: string }`. -/
structure ManifestItem where
  resolved_path : String
  media_type : String
  deriving DecidableEq, Repr

/-- The type `std::unordered_map<std::string, ManifestItem>`: a list of entries
with distinct keys, read through `unordered_map.find`. -/
abbrev unordered_map := List (String × ManifestItem)

/-- The member `emplace`: the entry is added unless the key is already there. -/
def unordered_map.emplace (m : unordered_map) (k : String) (v : ManifestItem) : unordered_map :=
  if m.any (fun e => e.1 == k) then m else m ++ [(k, v)]

/-- The member `find`: the value stored under the key, if any. -/
def unordered_map.find (m : unordered_map) (k : String) : Option ManifestItem :=
  m.lookup k

/-- Modelled from the spec: `PackageContents` of `epub/epub_metadata.h`, which
is not among the sources.  Spec 3: the manifest by id and the ordered spine. -/
structure PackageContents where
  id_to_manifest_item : unordered_map
  spine_ids : List String
  deriving DecidableEq, Repr

/-- The `while (node)` loop of `_parse_package_manifest`; `fs_path_join` belongs
to `sys/filesystem_path.h`, which is not among the sources, and is a parameter. -/
def _parse_package_manifest.loop (fs_path_join : String → String → String) (base_href : String) :
    xmlNodePtr → unordered_map → unordered_map
  | [], manifest => manifest
  | n :: rest, manifest =>
    let id := xmlGetProp n "id"
    let href := xmlGetProp n "href"
    let media_type := xmlGetProp n "media-type"
    let manifest :=
      match id, href, media_type with
      | some id, some href, some media_type =>
        manifest.emplace id ⟨fs_path_join base_href href, media_type⟩
      | _, _, _ => manifest
    _parse_package_manifest.loop fs_path_join base_href
      (elem_next_by_name (n :: rest) "item") manifest
termination_by node => node.length
decreasing_by
  have shorter : ∀ l : xmlNodePtr, (elem_first_by_name l "item").length ≤ l.length := by
    intro l
    induction l with
    | nil => simp [elem_first_by_name]
    | cons m l ih =>
      unfold elem_first_by_name
      split
      · exact le_refl _
      · exact Nat.le_succ_of_le ih
  exact Nat.lt_succ_of_le (shorter rest)

/-- The function `_parse_package_manifest`. -/
def _parse_package_manifest (fs_path_join : String → String → String) (base_href : String)
    (node : xmlNodePtr) : unordered_map :=
  let node := elem_first_child (elem_first_by_name node "package")
  let node := elem_first_child (elem_first_by_name node "manifest")
  let node := elem_first_by_name node "item"
  _parse_package_manifest.loop fs_path_join base_href node []

/-- The `while (node)` loop of `_parse_package_spine`. -/
def _parse_package_spine.loop : xmlNodePtr → List String → List String
  | [], spine_ids => spine_ids
  | n :: rest, spine_ids =>
    let idref := xmlGetProp n "idref"
    let spine_ids :=
      match idref with
      | some idref => spine_ids ++ [idref]
      | none => spine_ids
    _parse_package_spine.loop (elem_next_by_name (n :: rest) "itemref") spine_ids
termination_by node => node.length
decreasing_by
  have shorter : ∀ l : xmlNodePtr, (elem_first_by_name l "itemref").length ≤ l.length := by
    intro l
    induction l with
    | nil => simp [elem_first_by_name]
    | cons m l ih =>
      unfold elem_first_by_name
      split
      · exact le_refl _
      · exact Nat.le_succ_of_le ih
  exact Nat.lt_succ_of_le (shorter rest)

/-- The function `_parse_package_spine`. -/
def _parse_package_spine (node : xmlNodePtr) : List String :=
  let node := elem_first_child (elem_first_by_name node "package")
  let node := elem_first_child (elem_first_by_name node "spine")
  let node := elem_first_by_name node "itemref"
  _parse_package_spine.loop node []

/-- The function `epub_get_package_contents`: the returned flag and the value
of `out_package` on return; `package_doc` is the result of
`xmlReadMemory(package_xml, ...)`, and `fs_path_split_dir`, `fs_path_join`
belong to `sys/filesystem_path.h`, which is not among the sources. -/
def epub_get_package_contents
    (fs_path_split_dir : String → String × String) (fs_path_join : String → String → String)
    (rootfile_path : String) (package_doc : Option XmlDoc) (out_package : PackageContents) :
    Bool × PackageContents :=
  match package_doc with
  | none => (false, out_package)
  | some doc =>
    let node := xmlDocGetRootElement doc
    let base_href := (fs_path_split_dir rootfile_path).1
    let out_package := { out_package with
      id_to_manifest_item := _parse_package_manifest fs_path_join base_href node }
    let out_package := { out_package with spine_ids := _parse_package_spine node }
    (true, out_package)

/-- The child nodes of the `part` element (`manifest` or `spine`) of the
`package` element at the root of a package document. -/
def package_part_children (doc : XmlDoc) (part : String) : List XmlNode :=
  match (xmlDocGetRootElement doc).find? (XmlNode.is_element_named "package") with
  | none => []
  | some package =>
    match package.children.find? (XmlNode.is_element_named part) with
    | none => []
    | some p => p.children

/-- The `item` children of package -> manifest, in document order. -/
def manifest_items (doc : XmlDoc) : List XmlNode :=
  (package_part_children doc "manifest").filter (XmlNode.is_element_named "item")

/-- The `itemref` children of package -> spine, in document order. -/
def spine_itemrefs (doc : XmlDoc) : List XmlNode :=
  (package_part_children doc "spine").filter (XmlNode.is_element_named "itemref")

/-- The manifest entry an `item` stands for when it carries `id`, `href` and
`media-type`: the id and `{ fs_path_join(base_href, href), media-type }`. -/
def manifest_entry (fs_path_join : String → String → String) (base_href : String)
    (item : XmlNode) : Option (String × ManifestItem) :=
  match xmlGetProp item "id", xmlGetProp item "href", xmlGetProp item "media-type" with
  | some id, some href, some media_type => some (id, ⟨fs_path_join base_href href, media_type⟩)
  | _, _, _ => none

/-- Whether an `item` carries all three of `id`, `href` and `media-type`. -/
def has_manifest_attributes (item : XmlNode) : Bool :=
  (xmlGetProp item "id").isSome && (xmlGetProp item "href").isSome &&
    (xmlGetProp item "media-type").isSome

/-- The package of the spec's example with a spine and an incomplete item. -/
def example_package : XmlDoc :=
  ⟨[.comment " package ",
    .element "package" []
      [.text "\n",
       .element "metadata" [] [],
       .element "manifest" []
         [.text "\n",
          .element "item"
            [("id", "ch1"), ("href", "text/ch1.xhtml"), ("media-type", "application/xhtml+xml")] [],
          .comment "no href",
          .element "item" [("id", "ch2"), ("media-type", "application/xhtml+xml")] [],
          .element "item"
            [("id", "css"), ("href", "style.css"), ("media-type", "text/css")] []],
       .element "spine" []
         [.element "itemref" [("idref", "ch1")] [],
          .element "itemref" [("linear", "no")] [],
          .text " ",
          .element "itemref" [("idref", "ch2")] [],
          .element "itemref" [("idref", "ch1")] []]]]⟩

/-- The characters before and after the last slash of a path, if it has one. -/
def split_last_slash : List Char → Option (List Char × List Char)
  | [] => none
  | c :: cs =>
    match split_last_slash cs with
    | some (dir, name) => some (c :: dir, name)
    | none => if c = '/' then some ([], cs) else none

/-- Modelled from the spec: `fs_path_split_dir` of `sys/filesystem_path.h`, which
is not among the sources, on a relative path: the text before the last slash
(spec 4.1: `dirname(rootfile_path)`) and the text after it. -/
def example_split_dir (path : String) : String × String :=
  match split_last_slash path.data with
  | some (dir, name) => (String.mk dir, String.mk name)
  | none => ("", path)

/-- Modelled from the spec: `fs_path_join` of `sys/filesystem_path.h`, which is
not among the sources, on two normalized relative paths (spec 8: `dirname(rootfile_path) + "/" + href`). -/
def example_path_join (a b : String) : String :=
  if a = "" then b else a ++ "/" ++ b

/-- The `rootfile` element of `example_container`. -/
def example_rootfile : XmlNode :=
  .element "rootfile"
    [("full-path", "OEBPS/content.opf"), ("media-type", "application/oebps-package+xml")] []

/-- A container whose only rootfile is not a package document. -/
def container_other_media_type : XmlDoc :=
  ⟨[.element "container" []
      [.element "rootfiles" []
        [.element "rootfile" [("full-path", "book.pdf"), ("media-type", "application/pdf")] [],
         .element "rootfile"
           [("full-path", "OEBPS/content.opf"),
            ("media-type", "application/oebps-package+xml")] []]]]⟩

/-- A document whose root is not a `container`. -/
def container_wrong_root : XmlDoc :=
  ⟨[.element "html" [] [.element "rootfiles" [] [.element "rootfile" [] []]]]⟩

/-- A container without a `rootfiles` child. -/
def container_no_rootfiles : XmlDoc :=
  ⟨[.element "container" [] [.text " ", .element "rootfile" [] []]]⟩

/-- A container whose `rootfiles` has no `rootfile` child. -/
def container_no_rootfile : XmlDoc :=
  ⟨[.element "container" [] [.element "rootfiles" [] [.comment "empty"]]]⟩

/-- The first `item` of `example_package`. -/
def example_item : XmlNode :=
  .element "item"
    [("id", "ch1"), ("href", "text/ch1.xhtml"), ("media-type", "application/xhtml+xml")] []

/-- A parsed document that is not a package: no `package` element at the root. -/
def package_wrong_root : XmlDoc :=
  ⟨[.element "html" [] [.element "manifest" [] [.element "item" [("id", "x")] []]]]⟩

/-- A package with an empty manifest and no spine. -/
def package_empty_manifest : XmlDoc :=
  ⟨[.element "package" [] [.element "manifest" [] [.text " "]]]⟩

/-- Some earlier contents of `out_package`. -/
def stale_package : PackageContents :=
  ⟨[("old", ⟨"old.xhtml", "application/xhtml+xml"⟩)], ["old"]⟩

/-! ## `token_view.cpp` -/

/-- The macro `NUM_PREFETCH_LINES`. -/
def NUM_PREFETCH_LINES : Int := 30

/-- Modelled from the spec: the part of `TokenLineScroller`
(`token_line_scroller.h`, not among the sources) that the scroll arithmetic
reads: `get_line_number()`, `first_line_number()` and `last_line_number()`,
the last two unknown (`none`) until the boundary has been observed. -/
structure TokenLineScroller where
  line_number : Int
  first_line : Option Int
  last_line : Option Int
  deriving DecidableEq, Repr

/-- Modelled from the spec: `TokenLineScroller::seek_lines_relative`, which is
not among the sources.  Spec 4.4: moves the current position by `n` display
lines and does not clamp. -/
def TokenLineScroller.seek_lines_relative (s : TokenLineScroller) (n : Int) : TokenLineScroller :=
  { s with line_number := s.line_number + n }

/-- The fields of `TokenViewState` that scrolling reads or writes;
`show_title_bar` is `token_view_styling.get_show_title_bar()`. -/
structure TokenViewState where
  show_title_bar : Bool
  line_height : Int
  line_scroller : TokenLineScroller
  needs_render : Bool
  deriving DecidableEq, Repr

/-- The member `line_padding` of `TokenViewState`. -/
def line_padding : Int := 4

/-- The method `TokenViewState::num_text_display_lines`; `SCREEN_HEIGHT` belongs
to `sys/screen.h`, which is not among the sources, and is a parameter.  The
division of `int`s truncates, and dividing by zero does not return. -/
def num_text_display_lines (SCREEN_HEIGHT : Int) (state : TokenViewState) : Except CppError Int :=
  let show_title_bar := state.show_title_bar
  if state.line_height = 0 then
    .error .division_by_zero
  else
    let num_display_lines := (SCREEN_HEIGHT + line_padding).tdiv state.line_height
    if num_display_lines > NUM_PREFETCH_LINES then
      .error (.runtime_error "num_display_lines > NUM_PREFETCH_LINES")
    else
      .ok (num_display_lines - (if show_title_bar then 1 else 0))

/-- The method `TokenViewState::get_bounded_scroll_amount`. -/
def get_bounded_scroll_amount (SCREEN_HEIGHT : Int) (state : TokenViewState) (num_lines : Int) :
    Except CppError Int := do
  let cur_line := state.line_scroller.line_number
  let new_line := cur_line + num_lines
  let first_line := state.line_scroller.first_line
  let last_line := state.line_scroller.last_line
  let new_line ←
    match last_line with
    | some last => do
      let n ← num_text_display_lines SCREEN_HEIGHT state
      pure (min (last - n) new_line)
    | none => pure new_line
  let new_line :=
    match first_line with
    | some first => max first new_line
    | none => new_line
  pure (new_line - cur_line)

/-- The method `TokenView::scroll`: the state after the call.  The `on_scroll`
callback is the caller's and is left out. -/
def scroll (SCREEN_HEIGHT : Int) (state : TokenViewState) (num_lines : Int) :
    Except CppError TokenViewState := do
  let num_lines ← get_bounded_scroll_amount SCREEN_HEIGHT state num_lines
  if num_lines ≠ 0 then
    pure { state with
      needs_render := true
      line_scroller := state.line_scroller.seek_lines_relative num_lines }
  else
    pure state

/-- A book of six lines shown from its first line on a screen of twenty lines. -/
def short_book_state : TokenViewState :=
  { show_title_bar := false, line_height := 24, needs_render := false,
    line_scroller := { line_number := 0, first_line := some 0, last_line := some 5 } }

/-- A font so small that 48 lines fit on a screen of 480 pixels. -/
def small_font_state : TokenViewState :=
  { show_title_bar := true, line_height := 10, needs_render := false,
    line_scroller := { line_number := 0, first_line := some 0, last_line := some 100 } }

/-- A reader whose scroller has not yet seen either end of the book. -/
def unexplored_state : TokenViewState :=
  { show_title_bar := false, line_height := 24, needs_render := false,
    line_scroller := { line_number := 7, first_line := none, last_line := none } }

/-- A reader in the middle of a long book, both boundaries known. -/
def mid_book_state : TokenViewState :=
  { show_title_bar := true, line_height := 24, needs_render := false,
    line_scroller := { line_number := 50, first_line := some 0, last_line := some 100 } }

/-! ## `filesystem.cpp` -/

/-- The type `FSEntry` of `sys/filesystem.h`, with the two fields that
`directory_listing` fills and compares.  A name is a `std::string` holding
UTF-8, whose byte order is the order of its code points. -/
structure FSEntry where
  name : String
  is_dir : Bool
  deriving DecidableEq, Repr

/-- The C function `tolower` in the "C" locale, which the program never
changes: the letters `A` to `Z` go to `a` to `z`, every other character stays. -/
def tolower (c : Char) : Char :=
  if 65 ≤ c.toNat ∧ c.toNat ≤ 90 then Char.ofNat (c.toNat + 32) else c

/-- The function `to_lower`: `std::transform` of the string with `::tolower`. -/
def to_lower (s : String) : String :=
  String.mk (s.data.map tolower)

/-- The comparison `operator<` of two `std::string`s, on their characters:
the first position where they differ decides, and a proper prefix is smaller. -/
def string_lt : List Char → List Char → Bool
  | _, [] => false
  | [], _ :: _ => true
  | c :: cs, d :: ds =>
    if c.toNat < d.toNat then true
    else if d.toNat < c.toNat then false
    else string_lt cs ds

/-- The comparison that `directory_listing` passes to `std::sort`. -/
def directory_listing.comp (a b : FSEntry) : Bool :=
  if a.is_dir && !b.is_dir then
    true
  else
    string_lt (to_lower a.name).data (to_lower b.name).data

/-- A regular file called `a`. -/
def file_a : FSEntry := ⟨"a", false⟩

/-- A directory called `b`. -/
def dir_b : FSEntry := ⟨"b", true⟩

/-- A directory called `Z`. -/
def dir_z : FSEntry := ⟨"Z", true⟩

/-! ## Element lookup -/

theorem is_element_of_named {name : String} {n : XmlNode}
    (h : n.is_element_named name = true) : n.is_element = true := by
  cases n <;> simp_all [XmlNode.is_element_named, XmlNode.is_element]

theorem elem_first_by_name_head (l : xmlNodePtr) (name : String) :
    (elem_first_by_name l name).head? = l.find? (XmlNode.is_element_named name) := by
  induction l with
  | nil => rfl
  | cons n rest ih =>
    unfold elem_first_by_name
    by_cases h : n.is_element_named name = true
    · simp [h]
    · simp [h, ih]

theorem elem_first_by_name_skip (l : xmlNodePtr) (name : String) :
    elem_first_by_name (l.dropWhile (fun n => !n.is_element)) name = elem_first_by_name l name := by
  induction l with
  | nil => rfl
  | cons n rest ih =>
    by_cases h : n.is_element = true
    · simp [List.dropWhile, h]
    · have hn : n.is_element_named name = false := by
        cases hc : n.is_element_named name
        · rfl
        · exact absurd (is_element_of_named hc) h
      simp only [Bool.not_eq_true] at h
      simp [List.dropWhile, h, ih, elem_first_by_name, hn]

theorem find_skip (l : List XmlNode) (name : String) :
    (l.dropWhile (fun n => !n.is_element)).find? (XmlNode.is_element_named name) =
      l.find? (XmlNode.is_element_named name) := by
  rw [← elem_first_by_name_head, elem_first_by_name_skip, elem_first_by_name_head]

theorem elem_first_child_eq (l : xmlNodePtr) :
    elem_first_child l =
      match l.head? with
      | none => []
      | some n => n.children.dropWhile (fun c => !c.is_element) := by
  cases l <;> rfl

/-- Descending one level: the first element called `name` among the children
of the node found by a lookup is the first such child of the element found. -/
theorem descend_head (l : xmlNodePtr) (outer name : String) :
    (elem_first_by_name (elem_first_child (elem_first_by_name l outer)) name).head? =
      (l.find? (XmlNode.is_element_named outer)).bind
        (fun p => p.children.find? (XmlNode.is_element_named name)) := by
  rw [elem_first_by_name_head, elem_first_child_eq, elem_first_by_name_head]
  cases l.find? (XmlNode.is_element_named outer) with
  | none => rfl
  | some p =>
    simp only [Option.bind]
    exact find_skip _ _

/-- What `epub_get_rootfile_path` does on a parsed container, in terms of its
first `rootfile` element. -/
theorem epub_get_rootfile_path_eq (doc : XmlDoc) :
    epub_get_rootfile_path (some doc) =
      match first_rootfile doc with
      | none => .ok ""
      | some n =>
        if xmlStrEqual (xmlGetProp n "media-type") (some "application/oebps-package+xml") then
          std_string (xmlGetProp n "full-path")
        else .ok "" := by
  have key : (elem_first_by_name (elem_first_child (elem_first_by_name
      (elem_first_child (elem_first_by_name (xmlDocGetRootElement doc) "container"))
        "rootfiles")) "rootfile").head? = first_rootfile doc := by
    rw [descend_head, elem_first_child_eq, elem_first_by_name_head]
    unfold first_rootfile
    cases (xmlDocGetRootElement doc).find? (XmlNode.is_element_named "container") with
    | none => rfl
    | some c =>
      simp only [Option.bind]
      rw [find_skip]
  unfold epub_get_rootfile_path
  simp only
  rw [← key]
  cases elem_first_by_name (elem_first_child (elem_first_by_name
      (elem_first_child (elem_first_by_name (xmlDocGetRootElement doc) "container"))
        "rootfiles")) "rootfile" <;> rfl

/-! ## The container resolver -/

/-- C1: when the container parses and its first `rootfile` element (container
-> rootfiles -> rootfile) has media-type `application/oebps-package+xml` and a
`full-path` attribute, `epub_get_rootfile_path` returns that `full-path` value
unchanged. -/
theorem epub_get_rootfile_path_returns_full_path (doc : XmlDoc) (rootfile : XmlNode)
    (full_path : String)
    (hroot : first_rootfile doc = some rootfile)
    (hmedia : xmlGetProp rootfile "media-type" = some "application/oebps-package+xml")
    (hpath : xmlGetProp rootfile "full-path" = some full_path) :
    epub_get_rootfile_path (some doc) = .ok full_path := by
  rw [epub_get_rootfile_path_eq, hroot]
  simp [hmedia, hpath, xmlStrEqual, std_string]

/-- The example of C1: full-path `OEBPS/content.opf` yields `OEBPS/content.opf`. -/
theorem epub_get_rootfile_path_returns_full_path_witness :
    epub_get_rootfile_path (some example_container) = .ok "OEBPS/content.opf" :=
  epub_get_rootfile_path_returns_full_path example_container example_rootfile
    "OEBPS/content.opf" rfl rfl rfl

/-- C2: when the first `rootfile` element of a parsed container has a
media-type other than `application/oebps-package+xml`, or none at all,
`epub_get_rootfile_path` returns the empty string whatever `full-path` is. -/
theorem epub_get_rootfile_path_unsupported_media_type (doc : XmlDoc) (rootfile : XmlNode)
    (hroot : first_rootfile doc = some rootfile)
    (hmedia : xmlGetProp rootfile "media-type" ≠ some "application/oebps-package+xml") :
    epub_get_rootfile_path (some doc) = .ok "" := by
  rw [epub_get_rootfile_path_eq, hroot]
  cases hm : xmlGetProp rootfile "media-type" with
  | none => simp [xmlStrEqual, hm]
  | some m =>
    have hne : m ≠ "application/oebps-package+xml" := fun h => hmedia (by rw [hm, h])
    simp [xmlStrEqual, hm, hne]

/-- An instance of C2: the first rootfile is a PDF, a later one is a package. -/
theorem epub_get_rootfile_path_unsupported_media_type_witness :
    epub_get_rootfile_path (some container_other_media_type) = .ok "" :=
  epub_get_rootfile_path_unsupported_media_type container_other_media_type
    (.element "rootfile" [("full-path", "book.pdf"), ("media-type", "application/pdf")] [])
    rfl (by decide)

/-- C3: `epub_get_rootfile_path` returns the empty string, and raises nothing,
when the container cannot be parsed, when the parsed document has no
`container` root, when the container has no `rootfiles` child, and when the
`rootfiles` element has no `rootfile` child. -/
theorem epub_get_rootfile_path_missing_structure :
    epub_get_rootfile_path none = .ok "" ∧
    (∀ doc : XmlDoc,
      (xmlDocGetRootElement doc).find? (XmlNode.is_element_named "container") = none →
      epub_get_rootfile_path (some doc) = .ok "") ∧
    (∀ (doc : XmlDoc) (container : XmlNode),
      (xmlDocGetRootElement doc).find? (XmlNode.is_element_named "container") = some container →
      container.children.find? (XmlNode.is_element_named "rootfiles") = none →
      epub_get_rootfile_path (some doc) = .ok "") ∧
    (∀ (doc : XmlDoc) (container rootfiles : XmlNode),
      (xmlDocGetRootElement doc).find? (XmlNode.is_element_named "container") = some container →
      container.children.find? (XmlNode.is_element_named "rootfiles") = some rootfiles →
      rootfiles.children.find? (XmlNode.is_element_named "rootfile") = none →
      epub_get_rootfile_path (some doc) = .ok "") := by
  refine ⟨rfl, ?_, ?_, ?_⟩
  · intro doc h
    rw [epub_get_rootfile_path_eq]
    simp [first_rootfile, h]
  · intro doc container h1 h2
    rw [epub_get_rootfile_path_eq]
    simp [first_rootfile, h1, h2]
  · intro doc container rootfiles h1 h2 h3
    rw [epub_get_rootfile_path_eq]
    simp [first_rootfile, h1, h2, h3]

/-- Instances of C3: a wrong root, no `rootfiles`, no `rootfile`. -/
theorem epub_get_rootfile_path_missing_structure_witness :
    epub_get_rootfile_path (some container_wrong_root) = .ok "" ∧
    epub_get_rootfile_path (some container_no_rootfiles) = .ok "" ∧
    epub_get_rootfile_path (some container_no_rootfile) = .ok "" :=
  ⟨epub_get_rootfile_path_missing_structure.2.1 container_wrong_root rfl,
   epub_get_rootfile_path_missing_structure.2.2.1 container_no_rootfiles
     (.element "container" [] [.text " ", .element "rootfile" [] []]) rfl rfl,
   epub_get_rootfile_path_missing_structure.2.2.2 container_no_rootfile
     (.element "container" [] [.element "rootfiles" [] [.comment "empty"]])
     (.element "rootfiles" [] [.comment "empty"]) rfl rfl rfl⟩

/-- C10: on a container whose first `rootfile` has the package media type and
no `full-path` attribute, `epub_get_rootfile_path` builds a `std::string` from
the null pointer and raises instead of returning a string. -/
theorem epub_get_rootfile_path_null_full_path :
    first_rootfile container_without_full_path =
      some (.element "rootfile" [("media-type", "application/oebps-package+xml")] []) ∧
    epub_get_rootfile_path (some container_without_full_path) =
      .error (.logic_error "basic_string: construction from null is not valid") :=
  ⟨rfl, rfl⟩

/-! ## The package resolver -/

theorem filter_skip (l : List XmlNode) (name : String) :
    (l.dropWhile (fun n => !n.is_element)).filter (XmlNode.is_element_named name) =
      l.filter (XmlNode.is_element_named name) := by
  induction l with
  | nil => rfl
  | cons n rest ih =>
    by_cases h : n.is_element = true
    · simp [List.dropWhile, h]
    · have hn : n.is_element_named name = false := by
        cases hc : n.is_element_named name
        · rfl
        · exact absurd (is_element_of_named hc) h
      simp only [Bool.not_eq_true] at h
      simp [List.dropWhile, h, ih, hn]

/-- The node reached by descending package -> `part` and taking the first
child is the first element among the children of that part. -/
theorem descend_children (doc : XmlDoc) (part : String) :
    elem_first_child (elem_first_by_name
        (elem_first_child (elem_first_by_name (xmlDocGetRootElement doc) "package")) part) =
      (package_part_children doc part).dropWhile (fun c => !c.is_element) := by
  rw [elem_first_child_eq, descend_head]
  unfold package_part_children
  cases (xmlDocGetRootElement doc).find? (XmlNode.is_element_named "package") with
  | none => rfl
  | some p =>
    simp only [Option.bind]
    cases p.children.find? (XmlNode.is_element_named part) <;> rfl

theorem spine_loop_eq (l : xmlNodePtr) (acc : List String) :
    _parse_package_spine.loop (elem_first_by_name l "itemref") acc =
      acc ++ (l.filter (XmlNode.is_element_named "itemref")).filterMap
        (fun n => xmlGetProp n "idref") := by
  induction l generalizing acc with
  | nil => simp [elem_first_by_name, _parse_package_spine.loop]
  | cons n rest ih =>
    by_cases h : n.is_element_named "itemref" = true
    · rw [elem_first_by_name, if_pos h, _parse_package_spine.loop]
      simp only [elem_next_by_name]
      rw [ih, List.filter_cons_of_pos h, List.filterMap_cons]
      cases xmlGetProp n "idref" <;> simp
    · rw [elem_first_by_name, if_neg h, ih, List.filter_cons_of_neg h]

theorem _parse_package_spine_eq (doc : XmlDoc) :
    _parse_package_spine (xmlDocGetRootElement doc) =
      (spine_itemrefs doc).filterMap (fun n => xmlGetProp n "idref") := by
  unfold _parse_package_spine spine_itemrefs
  simp only
  rw [descend_children, spine_loop_eq, filter_skip, List.nil_append]

theorem manifest_loop_eq (fs_path_join : String → String → String) (base_href : String)
    (l : xmlNodePtr) (acc : unordered_map) :
    _parse_package_manifest.loop fs_path_join base_href (elem_first_by_name l "item") acc =
      ((l.filter (XmlNode.is_element_named "item")).filterMap
        (manifest_entry fs_path_join base_href)).foldl (fun m e => unordered_map.emplace m e.1 e.2) acc := by
  induction l generalizing acc with
  | nil => simp [elem_first_by_name, _parse_package_manifest.loop]
  | cons n rest ih =>
    by_cases h : n.is_element_named "item" = true
    · rw [elem_first_by_name, if_pos h, _parse_package_manifest.loop]
      simp only [elem_next_by_name]
      rw [ih, List.filter_cons_of_pos h, List.filterMap_cons]
      unfold manifest_entry
      cases xmlGetProp n "id" <;> cases xmlGetProp n "href" <;>
        cases xmlGetProp n "media-type" <;> simp
    · rw [elem_first_by_name, if_neg h, ih, List.filter_cons_of_neg h]

theorem _parse_package_manifest_eq (fs_path_join : String → String → String)
    (base_href : String) (doc : XmlDoc) :
    _parse_package_manifest fs_path_join base_href (xmlDocGetRootElement doc) =
      ((manifest_items doc).filterMap (manifest_entry fs_path_join base_href)).foldl
        (fun m e => unordered_map.emplace m e.1 e.2) [] := by
  unfold _parse_package_manifest manifest_items
  simp only
  rw [descend_children, manifest_loop_eq, filter_skip]

theorem lookup_emplace (m : unordered_map) (k : String) (v : ManifestItem) (k' : String) :
    (m.emplace k v).lookup k' = (m ++ [(k, v)]).lookup k' := by
  unfold unordered_map.emplace
  split
  · rename_i hany
    rw [List.lookup_append]
    by_cases hk : k' = k
    · subst hk
      cases hl : List.lookup k' m with
      | none =>
        rw [List.lookup_eq_none_iff] at hl
        rw [List.any_eq_true] at hany
        obtain ⟨e, he, hek⟩ := hany
        have := hl e he
        simp at hek this
        exact absurd hek.symm this
      | some w => rfl
    · have hne : (k' == k) = false := by simpa using hk
      have : List.lookup k' [(k, v)] = none := by
        rw [List.lookup_cons, hne, List.lookup_nil]
      rw [this]
      cases List.lookup k' m <;> rfl
  · rfl

theorem lookup_foldl_emplace (es : List (String × ManifestItem)) (m : unordered_map)
    (k : String) :
    (es.foldl (fun m e => unordered_map.emplace m e.1 e.2) m).lookup k = (m ++ es).lookup k := by
  induction es generalizing m with
  | nil => simp
  | cons e es ih =>
    rw [List.foldl_cons, ih, List.lookup_append, lookup_emplace, ← List.lookup_append]
    simp

theorem length_foldl_emplace (es : List (String × ManifestItem)) (m : unordered_map)
    (hnodup : (es.map Prod.fst).Nodup) (hfresh : ∀ e ∈ es, ∀ e' ∈ m, e'.1 ≠ e.1) :
    (es.foldl (fun m e => unordered_map.emplace m e.1 e.2) m).length = m.length + es.length := by
  induction es generalizing m with
  | nil => simp
  | cons e es ih =>
    have hnot : m.any (fun e' => e'.1 == e.1) = false := by
      rw [List.any_eq_false]
      intro e' he'
      simpa using hfresh e (List.mem_cons_self _ _) e' he'
    rw [List.map_cons, List.nodup_cons] at hnodup
    rw [List.foldl_cons, ih _ hnodup.2]
    · simp [unordered_map.emplace, hnot]
      omega
    · intro x hx e' he'
      simp only [unordered_map.emplace, hnot] at he'
      rcases List.mem_append.mp he' with h | h
      · exact hfresh x (List.mem_cons_of_mem _ hx) e' h
      · simp at h
        subst h
        intro heq
        exact hnodup.1 (heq ▸ List.mem_map_of_mem Prod.fst hx)

theorem lookup_eq_some_iff_mem (es : List (String × ManifestItem))
    (hnodup : (es.map Prod.fst).Nodup) (k : String) (v : ManifestItem) :
    es.lookup k = some v ↔ (k, v) ∈ es := by
  induction es with
  | nil => simp
  | cons e es ih =>
    obtain ⟨k', v'⟩ := e
    rw [List.map_cons, List.nodup_cons] at hnodup
    by_cases hk : k = k'
    · subst hk
      simp only [List.lookup_cons_self, Option.some.injEq, List.mem_cons, Prod.mk.injEq,
        true_and]
      constructor
      · intro h
        exact Or.inl h.symm
      · rintro (h | h)
        · exact h.symm
        · exact absurd (List.mem_map_of_mem Prod.fst h) hnodup.1
    · have hne : (k == k') = false := by simpa using hk
      rw [List.lookup_cons, hne, ih hnodup.2]
      simp [hk]

theorem manifest_entry_eq_some_iff (fs_path_join : String → String → String)
    (base_href : String) (item : XmlNode) (k : String) (v : ManifestItem) :
    manifest_entry fs_path_join base_href item = some (k, v) ↔
      ∃ href media_type, xmlGetProp item "id" = some k ∧ xmlGetProp item "href" = some href ∧
        xmlGetProp item "media-type" = some media_type ∧
        v = ⟨fs_path_join base_href href, media_type⟩ := by
  unfold manifest_entry
  cases xmlGetProp item "id" <;> cases xmlGetProp item "href" <;>
    cases xmlGetProp item "media-type" <;> simp
  intro _
  exact eq_comm

theorem manifest_entry_keys_sublist (fs_path_join : String → String → String)
    (base_href : String) (items : List XmlNode) :
    ((items.filterMap (manifest_entry fs_path_join base_href)).map Prod.fst).Sublist
      (items.filterMap (fun item => xmlGetProp item "id")) := by
  induction items with
  | nil => simp
  | cons item items ih =>
    rw [List.filterMap_cons, List.filterMap_cons]
    cases he : manifest_entry fs_path_join base_href item with
    | none =>
      cases xmlGetProp item "id" with
      | none => exact ih
      | some k => exact List.Sublist.cons _ ih
    | some e =>
      obtain ⟨k, v⟩ := e
      obtain ⟨_, _, hid, _⟩ := (manifest_entry_eq_some_iff _ _ _ _ _).mp he
      rw [hid]
      exact List.Sublist.cons₂ _ ih

theorem has_manifest_attributes_eq (fs_path_join : String → String → String)
    (base_href : String) (item : XmlNode) :
    has_manifest_attributes item = (manifest_entry fs_path_join base_href item).isSome := by
  unfold manifest_entry has_manifest_attributes
  cases xmlGetProp item "id" <;> cases xmlGetProp item "href" <;>
    cases xmlGetProp item "media-type" <;> rfl

theorem manifest_entry_count (fs_path_join : String → String → String)
    (base_href : String) (items : List XmlNode) :
    (items.filterMap (manifest_entry fs_path_join base_href)).length =
      (items.filter has_manifest_attributes).length := by
  induction items with
  | nil => rfl
  | cons item items ih =>
    rw [List.filterMap_cons, List.filter_cons,
      has_manifest_attributes_eq fs_path_join base_href item]
    cases manifest_entry fs_path_join base_href item <;> simp [ih]

/-- C4: for a parsed package whose manifest ids are unique, the manifest
written by `epub_get_package_contents` has the key `k` exactly when an `item`
child of package -> manifest carries `id = k`, `href` and `media-type`, and
the value is then `{ fs_path_join(dirname(rootfile_path), href), media-type }`
of that item; the manifest has one entry per item that carries all three
attributes, so one per item when every item does. -/
theorem epub_get_package_contents_manifest
    (fs_path_split_dir : String → String × String) (fs_path_join : String → String → String)
    (rootfile_path : String) (doc : XmlDoc) (out_package : PackageContents)
    (hunique : ((manifest_items doc).filterMap (fun item => xmlGetProp item "id")).Nodup) :
    (epub_get_package_contents fs_path_split_dir fs_path_join rootfile_path (some doc)
        out_package).1 = true ∧
    (∀ (k : String) (v : ManifestItem),
      (epub_get_package_contents fs_path_split_dir fs_path_join rootfile_path (some doc)
          out_package).2.id_to_manifest_item.find k = some v ↔
        ∃ item ∈ manifest_items doc, ∃ href media_type,
          xmlGetProp item "id" = some k ∧ xmlGetProp item "href" = some href ∧
          xmlGetProp item "media-type" = some media_type ∧
          v = ⟨fs_path_join (fs_path_split_dir rootfile_path).1 href, media_type⟩) ∧
    (epub_get_package_contents fs_path_split_dir fs_path_join rootfile_path (some doc)
        out_package).2.id_to_manifest_item.length =
      ((manifest_items doc).filter has_manifest_attributes).length ∧
    ((∀ item ∈ manifest_items doc, has_manifest_attributes item = true) →
      (epub_get_package_contents fs_path_split_dir fs_path_join rootfile_path (some doc)
          out_package).2.id_to_manifest_item.length = (manifest_items doc).length) := by
  have hkeys : (((manifest_items doc).filterMap
      (manifest_entry fs_path_join (fs_path_split_dir rootfile_path).1)).map Prod.fst).Nodup :=
    List.Nodup.sublist (manifest_entry_keys_sublist _ _ _) hunique
  have hlen : (epub_get_package_contents fs_path_split_dir fs_path_join rootfile_path (some doc)
      out_package).2.id_to_manifest_item.length =
        ((manifest_items doc).filter has_manifest_attributes).length := by
    simp only [epub_get_package_contents]
    rw [_parse_package_manifest_eq, length_foldl_emplace _ _ hkeys (by simp),
      manifest_entry_count]
    simp
  refine ⟨rfl, ?_, hlen, ?_⟩
  · intro k v
    simp only [epub_get_package_contents, unordered_map.find]
    rw [_parse_package_manifest_eq, lookup_foldl_emplace, List.nil_append,
      lookup_eq_some_iff_mem _ hkeys, List.mem_filterMap]
    constructor
    · rintro ⟨item, hmem, hentry⟩
      exact ⟨item, hmem, (manifest_entry_eq_some_iff _ _ _ _ _).mp hentry⟩
    · rintro ⟨item, hmem, hentry⟩
      exact ⟨item, hmem, (manifest_entry_eq_some_iff _ _ _ _ _).mpr hentry⟩
  · intro hall
    rw [hlen, List.filter_eq_self.mpr hall]

/-- The example of C4: rootfile `OEBPS/content.opf` and item `ch1` /
`text/ch1.xhtml` / `application/xhtml+xml` give the entry
`ch1 -> { OEBPS/text/ch1.xhtml, application/xhtml+xml }`. -/
theorem epub_get_package_contents_manifest_witness :
    (epub_get_package_contents example_split_dir example_path_join "OEBPS/content.opf"
        (some example_package) stale_package).2.id_to_manifest_item.find "ch1" =
      some ⟨"OEBPS/text/ch1.xhtml", "application/xhtml+xml"⟩ :=
  ((epub_get_package_contents_manifest example_split_dir example_path_join
      "OEBPS/content.opf" example_package stale_package (by decide)).2.1 "ch1"
      ⟨"OEBPS/text/ch1.xhtml", "application/xhtml+xml"⟩).mpr
    ⟨example_item, List.Mem.head _, "text/ch1.xhtml", "application/xhtml+xml", rfl, rfl, rfl, rfl⟩

/-- C5: for a parsed package, the spine written by `epub_get_package_contents`
is the list of the `idref` values of the `itemref` children of package ->
spine in document order, the itemrefs without `idref` left out. -/
theorem epub_get_package_contents_spine
    (fs_path_split_dir : String → String × String) (fs_path_join : String → String → String)
    (rootfile_path : String) (doc : XmlDoc) (out_package : PackageContents) :
    (epub_get_package_contents fs_path_split_dir fs_path_join rootfile_path (some doc)
        out_package).2.spine_ids =
      (spine_itemrefs doc).filterMap (fun itemref => xmlGetProp itemref "idref") := by
  simp only [epub_get_package_contents]
  exact _parse_package_spine_eq doc

/-- C6: `epub_get_package_contents` returns false exactly when the package
could not be parsed, and then leaves `out_package` as it was; on a parsed
document it returns true, with an empty manifest when package -> manifest has
no `item` and an empty spine when package -> spine has no `itemref`, both
empty when there is no `package` element. -/
theorem epub_get_package_contents_fails_iff_unparsable
    (fs_path_split_dir : String → String × String) (fs_path_join : String → String → String)
    (rootfile_path : String) (package_doc : Option XmlDoc) (out_package : PackageContents) :
    ((epub_get_package_contents fs_path_split_dir fs_path_join rootfile_path package_doc
        out_package).1 = false ↔ package_doc = none) ∧
    (package_doc = none →
      (epub_get_package_contents fs_path_split_dir fs_path_join rootfile_path package_doc
        out_package).2 = out_package) ∧
    (∀ doc : XmlDoc, package_doc = some doc →
      (epub_get_package_contents fs_path_split_dir fs_path_join rootfile_path package_doc
        out_package).1 = true ∧
      (manifest_items doc = [] →
        (epub_get_package_contents fs_path_split_dir fs_path_join rootfile_path package_doc
          out_package).2.id_to_manifest_item = []) ∧
      (spine_itemrefs doc = [] →
        (epub_get_package_contents fs_path_split_dir fs_path_join rootfile_path package_doc
          out_package).2.spine_ids = []) ∧
      ((xmlDocGetRootElement doc).find? (XmlNode.is_element_named "package") = none →
        (epub_get_package_contents fs_path_split_dir fs_path_join rootfile_path package_doc
          out_package).2 = ⟨[], []⟩)) := by
  refine ⟨?_, ?_, ?_⟩
  · cases package_doc <;> simp [epub_get_package_contents]
  · rintro rfl
    rfl
  · rintro doc rfl
    have hm : manifest_items doc = [] →
        _parse_package_manifest fs_path_join (fs_path_split_dir rootfile_path).1
          (xmlDocGetRootElement doc) = [] := by
      intro h
      rw [_parse_package_manifest_eq, h]
      rfl
    have hs : spine_itemrefs doc = [] → _parse_package_spine (xmlDocGetRootElement doc) = [] := by
      intro h
      rw [_parse_package_spine_eq, h]
      rfl
    refine ⟨rfl, hm, hs, ?_⟩
    intro hnone
    have h1 : manifest_items doc = [] := by simp [manifest_items, package_part_children, hnone]
    have h2 : spine_itemrefs doc = [] := by simp [spine_itemrefs, package_part_children, hnone]
    simp only [epub_get_package_contents, hm h1, hs h2]

/-- Instances of C6: an unparsable package, a document that is not a package,
and a package with an empty manifest and no spine. -/
theorem epub_get_package_contents_fails_iff_unparsable_witness :
    epub_get_package_contents example_split_dir example_path_join "OEBPS/content.opf" none
      stale_package = (false, stale_package) ∧
    epub_get_package_contents example_split_dir example_path_join "OEBPS/content.opf"
      (some package_wrong_root) stale_package = (true, ⟨[], []⟩) ∧
    epub_get_package_contents example_split_dir example_path_join "OEBPS/content.opf"
      (some package_empty_manifest) stale_package = (true, ⟨[], []⟩) := by
  have h0 := epub_get_package_contents_fails_iff_unparsable example_split_dir
    example_path_join "OEBPS/content.opf" none stale_package
  have h1 := (epub_get_package_contents_fails_iff_unparsable example_split_dir
    example_path_join "OEBPS/content.opf" (some package_wrong_root) stale_package).2.2
      package_wrong_root rfl
  have h2 := (epub_get_package_contents_fails_iff_unparsable example_split_dir
    example_path_join "OEBPS/content.opf" (some package_empty_manifest) stale_package).2.2
      package_empty_manifest rfl
  refine ⟨Prod.ext (h0.1.mpr rfl) (h0.2.1 rfl), Prod.ext h1.1 (h1.2.2.2 rfl), Prod.ext h2.1 ?_⟩
  have hm := h2.2.1 rfl
  have hs := h2.2.2.1 rfl
  revert hm hs
  generalize (epub_get_package_contents example_split_dir example_path_join
    "OEBPS/content.opf" (some package_empty_manifest) stale_package).2 = r
  intro hm hs
  cases r
  simp_all

/-! ## Bounded scrolling -/

/-- C9: for a positive `line_height`, `num_text_display_lines` raises its
runtime error exactly when `(SCREEN_HEIGHT + 4) / line_height` exceeds 30 (and
raises nothing else); otherwise it returns that quotient, less one when the
title bar is shown, so a returned value is at most 30. -/
theorem num_text_display_lines_fails_iff (SCREEN_HEIGHT : Int) (state : TokenViewState)
    (hpos : 0 < state.line_height) :
    (num_text_display_lines SCREEN_HEIGHT state =
        .error (.runtime_error "num_display_lines > NUM_PREFETCH_LINES") ↔
      (SCREEN_HEIGHT + 4).tdiv state.line_height > 30) ∧
    ((∃ e, num_text_display_lines SCREEN_HEIGHT state = .error e) ↔
      (SCREEN_HEIGHT + 4).tdiv state.line_height > 30) ∧
    (¬ (SCREEN_HEIGHT + 4).tdiv state.line_height > 30 →
      num_text_display_lines SCREEN_HEIGHT state =
        .ok ((SCREEN_HEIGHT + 4).tdiv state.line_height -
          (if state.show_title_bar then 1 else 0))) ∧
    (∀ n, num_text_display_lines SCREEN_HEIGHT state = .ok n → n ≤ 30) := by
  have hne : state.line_height ≠ 0 := ne_of_gt hpos
  unfold num_text_display_lines
  simp only [hne, if_false, line_padding, NUM_PREFETCH_LINES]
  by_cases hq : (SCREEN_HEIGHT + 4).tdiv state.line_height > 30
  · simp [hq]
  · simp only [hq, if_false]
    refine ⟨by simp, by simp, fun _ => trivial, ?_⟩
    intro n hn
    injection hn with hn
    subst hn
    split <;> omega

/-- An instance of C9: 480 pixels and lines of 24 give 20 lines, 19 under the
title bar. -/
theorem num_text_display_lines_fails_iff_witness :
    num_text_display_lines 480 mid_book_state = .ok 19 :=
  (num_text_display_lines_fails_iff 480 mid_book_state (by decide)).2.2.1 (by decide)

theorem get_bounded_scroll_amount_last_known (SCREEN_HEIGHT : Int) (state : TokenViewState)
    (num_lines last n : Int) (hlast : state.line_scroller.last_line = some last)
    (hn : num_text_display_lines SCREEN_HEIGHT state = .ok n) :
    get_bounded_scroll_amount SCREEN_HEIGHT state num_lines =
      .ok ((match state.line_scroller.first_line with
            | some first => max first (min (last - n) (state.line_scroller.line_number + num_lines))
            | none => min (last - n) (state.line_scroller.line_number + num_lines)) -
          state.line_scroller.line_number) := by
  unfold get_bounded_scroll_amount
  simp only [hlast, hn]
  rfl

theorem get_bounded_scroll_amount_last_unknown (SCREEN_HEIGHT : Int) (state : TokenViewState)
    (num_lines : Int) (hlast : state.line_scroller.last_line = none) :
    get_bounded_scroll_amount SCREEN_HEIGHT state num_lines =
      .ok ((match state.line_scroller.first_line with
            | some first => max first (state.line_scroller.line_number + num_lines)
            | none => state.line_scroller.line_number + num_lines) -
          state.line_scroller.line_number) := by
  unfold get_bounded_scroll_amount
  simp only [hlast]
  rfl

theorem get_bounded_scroll_amount_raises (SCREEN_HEIGHT : Int) (state : TokenViewState)
    (num_lines last : Int) (e : CppError) (hlast : state.line_scroller.last_line = some last)
    (he : num_text_display_lines SCREEN_HEIGHT state = .error e) :
    get_bounded_scroll_amount SCREEN_HEIGHT state num_lines = .error e := by
  unfold get_bounded_scroll_amount
  simp only [hlast, he]
  rfl

theorem scroll_line_number (SCREEN_HEIGHT : Int) (state : TokenViewState) (num_lines d : Int)
    (hd : get_bounded_scroll_amount SCREEN_HEIGHT state num_lines = .ok d) :
    ∃ state', scroll SCREEN_HEIGHT state num_lines = .ok state' ∧
      state'.line_scroller.line_number = state.line_scroller.line_number + d := by
  unfold scroll
  rw [hd]
  by_cases h0 : d = 0
  · subst h0
    exact ⟨state, rfl, by simp⟩
  · refine ⟨{ state with
      needs_render := true
      line_scroller := state.line_scroller.seek_lines_relative d }, ?_, rfl⟩
    show (if d ≠ 0 then _ else _) = _
    rw [if_pos h0]
    rfl

/-- C7, as the code has it: when the last line is known and
`num_text_display_lines()` returns `n`, `get_bounded_scroll_amount` returns a
delta `d` with `cur + d <= last - n` provided the first line is unknown or is
at most `last - n`; when the first line is known and greater than `last - n`
the result is `cur + d = first`.  `TokenView::scroll` then leaves the current
line at `cur + d`. -/
theorem get_bounded_scroll_amount_upper_bound (SCREEN_HEIGHT : Int) (state : TokenViewState)
    (num_lines last n : Int) (hlast : state.line_scroller.last_line = some last)
    (hn : num_text_display_lines SCREEN_HEIGHT state = .ok n) :
    ∃ (d : Int) (state' : TokenViewState),
      get_bounded_scroll_amount SCREEN_HEIGHT state num_lines = .ok d ∧
      scroll SCREEN_HEIGHT state num_lines = .ok state' ∧
      state'.line_scroller.line_number = state.line_scroller.line_number + d ∧
      (state.line_scroller.first_line = none →
        state.line_scroller.line_number + d ≤ last - n) ∧
      (∀ first, state.line_scroller.first_line = some first → first ≤ last - n →
        state.line_scroller.line_number + d ≤ last - n) ∧
      (∀ first, state.line_scroller.first_line = some first → last - n < first →
        state.line_scroller.line_number + d = first) := by
  have hd := get_bounded_scroll_amount_last_known SCREEN_HEIGHT state num_lines last n hlast hn
  obtain ⟨state', hs, hline⟩ := scroll_line_number SCREEN_HEIGHT state num_lines _ hd
  refine ⟨_, state', hd, hs, hline, ?_, ?_, ?_⟩
  · intro hnone
    simp only [hnone]
    omega
  · intro first hfirst hle
    simp only [hfirst]
    omega
  · intro first hfirst hlt
    simp only [hfirst]
    omega

/-- An instance of C7 as amended: from line 50 of a book whose last line is
100, with 19 lines on screen, a request for 100 lines moves by 31. -/
theorem get_bounded_scroll_amount_upper_bound_witness :
    ∃ (d : Int) (state' : TokenViewState),
      get_bounded_scroll_amount 480 mid_book_state 100 = .ok d ∧
      scroll 480 mid_book_state 100 = .ok state' ∧
      state'.line_scroller.line_number = mid_book_state.line_scroller.line_number + d ∧
      (mid_book_state.line_scroller.first_line = none →
        mid_book_state.line_scroller.line_number + d ≤ 100 - 19) ∧
      (∀ first, mid_book_state.line_scroller.first_line = some first → first ≤ 100 - 19 →
        mid_book_state.line_scroller.line_number + d ≤ 100 - 19) ∧
      (∀ first, mid_book_state.line_scroller.first_line = some first → 100 - 19 < first →
        mid_book_state.line_scroller.line_number + d = first) :=
  get_bounded_scroll_amount_upper_bound 480 mid_book_state 100 100 19 rfl rfl

/-- C7 fails as stated: a book of lines 0 to 5 on a screen of 20 lines, shown
from its first line.  The first-line clamp is applied last, so the delta is 0
and the current line 0 stays above `last - num_text_display_lines() = -15`,
also after `scroll`. -/
theorem get_bounded_scroll_amount_short_book :
    short_book_state.line_scroller.last_line = some 5 ∧
    num_text_display_lines 480 short_book_state = .ok 20 ∧
    get_bounded_scroll_amount 480 short_book_state 0 = .ok 0 ∧
    ¬ (short_book_state.line_scroller.line_number + 0 ≤ 5 - 20) ∧
    scroll 480 short_book_state 0 = .ok short_book_state :=
  ⟨rfl, rfl, rfl, by decide, rfl⟩

/-- C8, as the code has it: when the first line is known and either the last
line is unknown or `num_text_display_lines()` returns, `get_bounded_scroll_amount`
returns a delta `d` with `cur + d >= first`; when neither boundary is known
it returns the requested amount; when the last line is known and
`num_text_display_lines()` raises, so does `get_bounded_scroll_amount`. -/
theorem get_bounded_scroll_amount_lower_bound (SCREEN_HEIGHT : Int) (state : TokenViewState)
    (num_lines : Int) :
    (∀ first, state.line_scroller.first_line = some first →
      (state.line_scroller.last_line = none ∨
        ∃ n, num_text_display_lines SCREEN_HEIGHT state = .ok n) →
      ∃ d, get_bounded_scroll_amount SCREEN_HEIGHT state num_lines = .ok d ∧
        state.line_scroller.line_number + d ≥ first) ∧
    (state.line_scroller.first_line = none → state.line_scroller.last_line = none →
      get_bounded_scroll_amount SCREEN_HEIGHT state num_lines = .ok num_lines) ∧
    (∀ last e, state.line_scroller.last_line = some last →
      num_text_display_lines SCREEN_HEIGHT state = .error e →
      get_bounded_scroll_amount SCREEN_HEIGHT state num_lines = .error e) := by
  refine ⟨?_, ?_, ?_⟩
  · intro first hfirst hcap
    cases hlast : state.line_scroller.last_line with
    | none =>
      refine ⟨_, get_bounded_scroll_amount_last_unknown SCREEN_HEIGHT state num_lines hlast, ?_⟩
      simp only [hfirst]
      omega
    | some last =>
      rcases hcap with hnone | ⟨n, hn⟩
      · rw [hlast] at hnone
        cases hnone
      · refine ⟨_, get_bounded_scroll_amount_last_known SCREEN_HEIGHT state num_lines last n
          hlast hn, ?_⟩
        simp only [hfirst]
        omega
  · intro hfirst hlast
    rw [get_bounded_scroll_amount_last_unknown SCREEN_HEIGHT state num_lines hlast]
    simp only [hfirst]
    congr 1
    omega
  · intro last e hlast he
    exact get_bounded_scroll_amount_raises SCREEN_HEIGHT state num_lines last e hlast he

/-- Instances of C8 as amended: a request to go back 100 lines from line 50
stops at the first line 0; with no boundary known a request for 3 lines is
returned unchanged. -/
theorem get_bounded_scroll_amount_lower_bound_witness :
    (∃ d, get_bounded_scroll_amount 480 mid_book_state (-100) = .ok d ∧
      mid_book_state.line_scroller.line_number + d ≥ 0) ∧
    get_bounded_scroll_amount 480 unexplored_state 3 = .ok 3 :=
  ⟨(get_bounded_scroll_amount_lower_bound 480 mid_book_state (-100)).1 0 rfl
      (Or.inr ⟨19, rfl⟩),
   (get_bounded_scroll_amount_lower_bound 480 unexplored_state 3).2.1 rfl rfl⟩

/-- C8 fails as stated: with the first and the last line known and a line
height of 10 on a screen of 480 pixels (48 lines, more than the 30 that are
prefetched), `get_bounded_scroll_amount` raises and returns no delta. -/
theorem get_bounded_scroll_amount_small_font :
    small_font_state.line_scroller.first_line = some 0 ∧
    get_bounded_scroll_amount 480 small_font_state 1 =
      .error (.runtime_error "num_display_lines > NUM_PREFETCH_LINES") :=
  ⟨rfl, rfl⟩

/-! ## The order of a directory listing -/

theorem string_lt_irreflexive (s : List Char) : string_lt s s = false := by
  induction s with
  | nil => rfl
  | cons c cs ih => simp [string_lt, ih]

theorem directory_listing_comp_irreflexive (a : FSEntry) :
    directory_listing.comp a a = false := by
  unfold directory_listing.comp
  cases h : a.is_dir <;> simp [string_lt_irreflexive]

/-- C11: the comparison of `directory_listing` is not a strict weak ordering.
For the file `a` and the directory `b` it holds in both directions, so it is
not asymmetric; the directory `Z` comes before the file `a` and the file `a`
before the directory `b`, yet `Z` does not come before `b`, so it is not
transitive. -/
theorem directory_listing_comp_not_strict_weak :
    (directory_listing.comp file_a dir_b = true ∧
      directory_listing.comp dir_b file_a = true) ∧
    (directory_listing.comp dir_z file_a = true ∧
      directory_listing.comp file_a dir_b = true ∧
      directory_listing.comp dir_z dir_b = false) := by
  decide

end PixelReader
